import Mathlib

/-!
Shallow embedding of the reconciliation/validation engine of
`scripts/validator.py` (plus the key normalizer of
`scripts/generate_diff_report.py`), together with theorems settling the
frozen claims about it.

Modelling conventions:
* Python scalar values appearing in extracted records are modelled by `Val`
  (absent `None`, a finite number, the non-finite floats, or a string).
  Python's int/float distinction is collapsed into one numeric constructor
  holding an exact rational; the code only ever compares numbers after a
  `float(...)` coercion, so this collapse is observation-equivalent on every
  path the claims exercise (the only difference, decimal rendering inside the
  string-equality fallback, is commented at `pyStr`).
* Python floats are modelled by `PFloat`: an exact rational or one of
  nan, inf, minus-inf.  Arithmetic on the rational part is exact; the code's own
  `EPSILON = 1e-9` slack (added precisely to absorb binary rounding noise)
  makes every tolerance decision of the claims identical under this model.
* A Python function that can raise is modelled in `Except String`; a raised
  exception is `.error`.
* String helpers (`strip`, `upper`, `replace`) are re-implemented over the
  character list of the string, restricted to ASCII, which covers every
  input the program's data uses.
-/

/-- A raw Python scalar value as found in an extracted record. -/
inductive Val where
  | none
  | num (q : ℚ)
  | nan
  | inf
  | ninf
  | str (s : String)
deriving DecidableEq, Repr

/-- A Python float: a finite value (exact rational model) or a special. -/
inductive PFloat where
  | fin (q : ℚ)
  | nan
  | inf
  | ninf
deriving DecidableEq, Repr

namespace PFloat

/-- Python float subtraction, with the usual IEEE special-value rules. -/
def sub : PFloat → PFloat → PFloat
  | .fin a, .fin b => .fin (a - b)
  | .nan, _ => .nan
  | _, .nan => .nan
  | .inf, .inf => .nan
  | .inf, _ => .inf
  | .ninf, .ninf => .nan
  | .ninf, _ => .ninf
  | .fin _, .inf => .ninf
  | .fin _, .ninf => .inf

/-- Python float addition, with the usual IEEE special-value rules. -/
def add : PFloat → PFloat → PFloat
  | .fin a, .fin b => .fin (a + b)
  | .nan, _ => .nan
  | _, .nan => .nan
  | .inf, .ninf => .nan
  | .ninf, .inf => .nan
  | .inf, _ => .inf
  | _, .inf => .inf
  | .ninf, _ => .ninf
  | _, .ninf => .ninf

/-- Python float multiplication, with the usual IEEE special-value rules. -/
def mul : PFloat → PFloat → PFloat
  | .fin a, .fin b => .fin (a * b)
  | .nan, _ => .nan
  | _, .nan => .nan
  | .inf, .inf => .inf
  | .inf, .ninf => .ninf
  | .ninf, .inf => .ninf
  | .ninf, .ninf => .inf
  | .inf, .fin b => if 0 < b then .inf else if b < 0 then .ninf else .nan
  | .fin a, .inf => if 0 < a then .inf else if a < 0 then .ninf else .nan
  | .ninf, .fin b => if 0 < b then .ninf else if b < 0 then .inf else .nan
  | .fin a, .ninf => if 0 < a then .ninf else if a < 0 then .inf else .nan

/-- Python float division; `Option.none` models a ZeroDivisionError. -/
def divO : PFloat → PFloat → Option PFloat
  | .fin a, .fin b => if b = 0 then Option.none else some (.fin (a / b))
  | .nan, _ => some .nan
  | _, .nan => some .nan
  | .inf, .inf => some .nan
  | .inf, .ninf => some .nan
  | .ninf, .inf => some .nan
  | .ninf, .ninf => some .nan
  | .fin _, .inf => some (.fin 0)
  | .fin _, .ninf => some (.fin 0)
  | .inf, .fin b => if b = 0 then Option.none else if 0 < b then some .inf else some .ninf
  | .ninf, .fin b => if b = 0 then Option.none else if 0 < b then some .ninf else some .inf

/-- Python `abs` on floats. -/
def abs : PFloat → PFloat
  | .fin a => .fin |a|
  | .nan => .nan
  | .inf => .inf
  | .ninf => .inf

/-- Python `<=` on floats: any comparison against nan is false. -/
def le : PFloat → PFloat → Bool
  | .nan, _ => false
  | _, .nan => false
  | .ninf, _ => true
  | _, .ninf => false
  | _, .inf => true
  | .inf, _ => false
  | .fin a, .fin b => a ≤ b

/-- Python `<` on floats: any comparison against nan is false. -/
def lt : PFloat → PFloat → Bool
  | .nan, _ => false
  | _, .nan => false
  | .ninf, .ninf => false
  | .ninf, _ => true
  | _, .ninf => false
  | .inf, .inf => false
  | _, .inf => true
  | .inf, _ => false
  | .fin a, .fin b => a < b

/-- Negation (used for a leading minus sign when parsing). -/
def neg : PFloat → PFloat
  | .fin a => .fin (-a)
  | .nan => .nan
  | .inf => .ninf
  | .ninf => .inf

/-- True on a finite float. -/
def isFinite : PFloat → Bool
  | .fin _ => true
  | _ => false

end PFloat

/-- Truncation toward zero, the behavior of Python `int()` on a float. -/
def ratTrunc (q : ℚ) : ℤ :=
  if 0 ≤ q then q.floor else q.ceil

/-- Python `int()` on a float; raises on nan and on the infinities. -/
def PFloat.toIntE : PFloat → Except String ℤ
  | .fin q => .ok (ratTrunc q)
  | .nan => .error "cannot convert float NaN to integer"
  | .inf => .error "cannot convert float infinity to integer"
  | .ninf => .error "cannot convert float infinity to integer"

/-- The characters stripped by Python's no-argument `str.strip()`. -/
def isSpaceChar (c : Char) : Bool :=
  c = ' ' ∨ c = '\t' ∨ c = '\n' ∨ c = '\x0d' ∨ c = '\x0b' ∨ c = '\x0c'

/-- Strip leading and trailing whitespace from a character list. -/
def stripChars (l : List Char) : List Char :=
  ((l.dropWhile isSpaceChar).reverse.dropWhile isSpaceChar).reverse

/-- Python `str.strip()` (ASCII whitespace). -/
def pyStrip (s : String) : String :=
  String.mk (stripChars s.data)

/-- Uppercase one ASCII character. -/
def upperChar (c : Char) : Char :=
  if 'a' ≤ c ∧ c ≤ 'z' then Char.ofNat (c.toNat - 32) else c

/-- Lowercase one ASCII character. -/
def lowerChar (c : Char) : Char :=
  if 'A' ≤ c ∧ c ≤ 'Z' then Char.ofNat (c.toNat + 32) else c

/-- Python `str.upper()` (ASCII). -/
def pyUpper (s : String) : String :=
  String.mk (s.data.map upperChar)

/-- Python `s.replace(c, "")`: delete every occurrence of one character. -/
def removeChar (c : Char) (s : String) : String :=
  String.mk (s.data.filter (fun d => d ≠ c))

/-- Decimal digit test. -/
def isDigitChar (c : Char) : Bool :=
  '0' ≤ c ∧ c ≤ '9'

/-- Numeric value of a digit string (digits already validated). -/
def digitsToNat (l : List Char) : ℕ :=
  l.foldl (fun a c => a * 10 + (c.toNat - 48)) 0

/-- Parse a non-empty all-digit character list. -/
def parseDigits (l : List Char) : Option ℕ :=
  if l ≠ [] ∧ l.all isDigitChar then some (digitsToNat l) else Option.none

/-- Split a character list at the first occurrence of a character. -/
def splitAtChar (c : Char) (l : List Char) : List Char × Option (List Char) :=
  match l.span (fun d => d ≠ c) with
  | (a, []) => (a, Option.none)
  | (a, _ :: b) => (a, some b)

/-- Parse the unsigned mantissa of a Python float literal:
digits, optionally with one decimal point, at least one digit in total. -/
def parseMantissa (l : List Char) : Option ℚ :=
  match splitAtChar '.' l with
  | (ip, Option.none) => (parseDigits ip).map (fun n => (n : ℚ))
  | (ip, some fp) =>
    if fp.contains '.' then Option.none
    else if ip = [] ∧ fp = [] then Option.none
    else if ip.all isDigitChar ∧ fp.all isDigitChar then
      some ((digitsToNat ip : ℚ) + (digitsToNat fp : ℚ) / (10 : ℚ) ^ fp.length)
    else Option.none

/-- Parse the (optionally signed) exponent of a Python float literal. -/
def parseExponent (l : List Char) : Option ℤ :=
  match l with
  | '+' :: r => (parseDigits r).map (fun n => (n : ℤ))
  | '-' :: r => (parseDigits r).map (fun n => -(n : ℤ))
  | r => (parseDigits r).map (fun n => (n : ℤ))

/-- Parse an unsigned, already-lowercased Python float literal body:
`inf`, `infinity`, `nan`, or a decimal with optional exponent. -/
def parseUnsigned (l : List Char) : Option PFloat :=
  if l = ['i', 'n', 'f'] ∨ l = ['i', 'n', 'f', 'i', 'n', 'i', 't', 'y'] then some .inf
  else if l = ['n', 'a', 'n'] then some .nan
  else
    match splitAtChar 'e' l with
    | (m, Option.none) => (parseMantissa m).map (fun q => .fin q)
    | (m, some ex) =>
      if ex.contains 'e' then Option.none
      else
        match parseMantissa m, parseExponent ex with
        | some q, some z => some (.fin (q * (10 : ℚ) ^ z))
        | _, _ => Option.none

/-- Model of CPython `float(s)` on a string: strip whitespace, optional
sign, then a case-insensitive float literal.  (Underscore digit grouping,
accepted by CPython, is not modelled; no input of this program uses it.) -/
def parsePyFloat (s : String) : Option PFloat :=
  match (stripChars s.data).map lowerChar with
  | '+' :: r => parseUnsigned r
  | '-' :: r => (parseUnsigned r).map PFloat.neg
  | r => parseUnsigned r

namespace Val

/-- Python truthiness of a value (`if not s: ...`). -/
def truthy : Val → Bool
  | .none => false
  | .num q => q ≠ 0
  | .nan => true
  | .inf => true
  | .ninf => true
  | .str s => s ≠ ""

/-- Python `v != 0` for a raw value (numbers compare numerically,
anything non-numeric is unequal to `0`). -/
def neZero : Val → Bool
  | .num q => q ≠ 0
  | _ => true

end Val

/-- Python `float(v)` on a raw value; `Option.none` models a raised
`ValueError`/`TypeError`. -/
def pyFloatOf : Val → Option PFloat
  | .none => Option.none
  | .num q => some (.fin q)
  | .nan => some .nan
  | .inf => some .inf
  | .ninf => some .ninf
  | .str s => parsePyFloat s

/-- Python `str(v)`.  For a non-integral number the exact Python float
`repr` (shortest round-trip decimal) is not reproduced; the rendering is
only ever used inside the string-equality fallback of `compare_values`,
where no claim depends on the decimal shape of a number. -/
def pyStr : Val → String
  | .none => "None"
  | .num q => if q.den = 1 then toString q.num else toString q
  | .nan => "nan"
  | .inf => "inf"
  | .ninf => "-inf"
  | .str s => s

-- Tolerances (validator.py lines 17-20, module constants).
def PCT_TOL : ℚ := 1 / 1000
def CURRENCY_TOL : ℚ := 1
def EPSILON : ℚ := 1 / 1000000000

/-- The dash-to-zero and None-to-zero substitutions of
`compare_values` (lines 76-86), composed per value. -/
def substitute (v : Val) : Val :=
  if v = .str "-" then .num 0 else if v = .none then .num 0 else v

/-- `compare_values` of validator.py (lines 66-122).  Returns
`(is_match, difference, match_type)`; `.error` models a raised
exception (possible only via `int()` in the integer branch). -/
def compare_values (actual expected : Val) (field_type : String) :
    Except String (Bool × PFloat × String) :=
  if actual = Val.none ∧ expected = Val.none then .ok (true, .fin 0, "exact")
  else
    let a := substitute actual
    let e := substitute expected
    match pyFloatOf a, pyFloatOf e with
    | some actual_num, some expected_num =>
      let diff := actual_num.sub expected_num
      if field_type = "percentage" then
        if diff.abs.le (.fin (PCT_TOL + EPSILON)) then
          .ok (true, diff, if diff.abs.lt (.fin EPSILON) then "exact" else "within_tolerance")
        else .ok (false, diff, "mismatch")
      else if field_type = "currency" then
        if diff.abs.le (.fin (CURRENCY_TOL + EPSILON)) then
          .ok (true, diff, if diff.abs.lt (.fin EPSILON) then "exact" else "within_tolerance")
        else .ok (false, diff, "mismatch")
      else if field_type = "integer" then
        match actual_num.toIntE with
        | .error msg => .error msg
        | .ok ia =>
          match expected_num.toIntE with
          | .error msg => .error msg
          | .ok ie =>
            if ia = ie then .ok (true, .fin 0, "exact") else .ok (false, diff, "mismatch")
      else
        if diff.abs.lt (.fin EPSILON) then .ok (true, .fin 0, "exact")
        else .ok (false, diff, "mismatch")
    | _, _ =>
      -- coercion failed on a side: exact string comparison (line 93)
      if pyStr a = pyStr e then .ok (true, .fin 0, "exact")
      else .ok (false, .fin 0, "mismatch")

deriving instance DecidableEq for Except

/-- An extracted record: the three identifying attributes, bookkeeping
attributes, and the data fields as an association list (a Python dict;
`Option.none` everywhere models an absent key, `Val.none` a stored
`None`).  The identifying/bookkeeping keys are disjoint from the schema
field names, so splitting them out of the dict is faithful. -/
structure Record where
  market : Option Val := Option.none
  category : Option Val := Option.none
  brand : Option Val := Option.none
  excel_row : Option Val := Option.none
  is_total : Option Val := Option.none
  fields : List (String × Val) := []
deriving DecidableEq, Repr, Inhabited

/-- First-match association-list lookup (Python dict read). -/
def alookup {α β : Type} [DecidableEq α] : List (α × β) → α → Option β
  | [], _ => Option.none
  | (k, v) :: rest, k2 => if k2 = k then some v else alookup rest k2

/-- Python `rec.get(field_name)` on the data fields (default `None`). -/
def Record.get (r : Record) (name : String) : Val :=
  (alookup r.fields name).getD Val.none

/-- The `clean` helper inside `normalize_key` (validator.py lines 59-62):
falsy input gives the empty string, otherwise strip, uppercase, and delete
internal spaces and hyphens. -/
def clean (s : Val) : String :=
  if s.truthy then removeChar '-' (removeChar ' ' (pyUpper (pyStrip (pyStr s)))) else ""

/-- A normalized matching key. -/
def Key : Type := String × String × String

instance : DecidableEq Key := instDecidableEqProd
instance : Inhabited Key := ⟨("", "", "")⟩

/-- `normalize_key` of validator.py (lines 57-63). -/
def normalize_key (market category brand : Val) : Key :=
  (clean market, clean category, clean brand)

/-- `normalize_brand` of generate_diff_report.py (lines 36-40). -/
def normalize_brand (brand : Val) : String :=
  if brand.truthy then removeChar '-' (removeChar ' ' (pyUpper (pyStrip (pyStr brand)))) else ""

/-- `normalize_market` of generate_diff_report.py (lines 42-46):
strip and uppercase only. -/
def normalize_market (market : Val) : String :=
  if market.truthy then pyUpper (pyStrip (pyStr market)) else ""

/-- `make_key` of generate_diff_report.py (lines 48-53), over the three
attribute reads `record.get('market','')`, `record.get('category')`,
`record.get('brand','')`. -/
def make_key (market category brand : Option Val) : Key :=
  let m := normalize_market (market.getD (.str ""))
  let c0 := category.getD Val.none
  let c := pyUpper (pyStrip (if c0.truthy then pyStr c0 else ""))
  let b := normalize_brand (brand.getD (.str ""))
  (m, c, b)

/-- The field schema (validator.py lines 126-140): name, type, label. -/
def FIELD_DEFINITIONS : List (String × String × String) :=
  [("budget_2026", "currency", "2026 Budget"),
   ("sufficient_2026", "currency", "2026 Sufficient"),
   ("gap_gbp", "currency", "Gap (GBP)"),
   ("gap_pct", "percentage", "Gap (%)"),
   ("awa", "percentage", "AWA"),
   ("con", "percentage", "CON"),
   ("pur", "percentage", "PUR"),
   ("tv", "percentage", "TV"),
   ("digital", "percentage", "Digital"),
   ("others", "percentage", "Others"),
   ("long_campaigns", "integer", "Long Campaigns"),
   ("short_campaigns", "integer", "Short Campaigns"),
   ("long_pct", "percentage", "Long %")]

/-- A reported discrepancy (validator.py lines 23-36). -/
structure Discrepancy where
  market : Val
  category : Val
  brand : Val
  field : String
  actual_value : Val
  expected_value : Val
  difference : Option PFloat
  diff_percent : Option PFloat
  excel_row : Val
  severity : String
  root_cause_hint : String
deriving DecidableEq, Repr

/-- The aggregate result (validator.py lines 39-54).  The timestamp and
file-path fields, pure I/O metadata, and the informational
`edge_cases_tested` audit (not touched by any claim) are omitted. -/
structure ValidationResult where
  total_fields_checked : ℕ
  total_records_checked : ℕ
  exact_matches : ℤ
  within_tolerance : ℕ
  mismatches : ℕ
  missing_in_excel : ℕ
  missing_in_ppt : ℕ
  discrepancies : List Discrepancy
  pass_rate : ℚ
deriving DecidableEq, Repr, Inhabited

/-- Python truthiness of a float (`if diff: ...`). -/
def PFloat.truthyP : PFloat → Bool
  | .fin q => q ≠ 0
  | _ => true

/-- Round-half-to-even to an integer, the rounding rule of Python
`round`. -/
def roundHalfEven (q : ℚ) : ℤ :=
  let fl := q.floor
  let frac := q - fl
  if frac < 1 / 2 then fl
  else if (1 : ℚ) / 2 < frac then fl + 1
  else if fl % 2 = 0 then fl else fl + 1

/-- Python `round(x, nd)` on a float (decimal half-even; the exact binary
behavior of CPython differs microscopically, and no claim reads the
rounded fields). -/
def pyRound (x : PFloat) (nd : ℕ) : PFloat :=
  match x with
  | .fin q => .fin ((roundHalfEven (q * (10 : ℚ) ^ nd) : ℚ) / (10 : ℚ) ^ nd)
  | o => o

/-- `infer_root_cause` coercion (validator.py lines 243-247): `None` and
the dash count as zero, anything else goes through `float(...)`. -/
def ircFloat (v : Val) : Option PFloat :=
  if v = Val.none ∨ v = .str "-" then some (.fin 0) else pyFloatOf v

/-- Python `isinstance(v, str) and '=' in v`. -/
def hasEqualsSign : Val → Bool
  | .str s => s.data.contains '='
  | _ => false

/-- `infer_root_cause` of validator.py (lines 236-269).  Total: the bare
`except` around the coercion catches every failure. -/
def infer_root_cause (actual expected : Val) (_field_name field_type : String) : String :=
  if actual = Val.none ∧ expected ≠ Val.none then
    "Value missing in Excel - extraction failed or row mismatch"
  else if expected = Val.none ∧ actual ≠ Val.none then
    "Value missing in PPT - extraction failed"
  else
    match ircFloat actual, ircFloat expected with
    | some actual_num, some expected_num =>
      if field_type = "percentage" ∧
          ((actual_num.mul (.fin 100)).sub expected_num).abs.lt (.fin (1 / 100)) then
        "Scale issue: Excel has decimal, PPT has percentage"
      else if field_type = "percentage" ∧
          (actual_num.sub (expected_num.mul (.fin 100))).abs.lt (.fin (1 / 100)) then
        "Scale issue: PPT has decimal, Excel has percentage"
      else if actual_num ≠ .fin 0 ∧ expected_num ≠ .fin 0 ∧
          (actual_num.add expected_num).abs.lt (.fin (1 / 100)) then
        "Sign flip: values have opposite signs"
      else if hasEqualsSign actual then
        "Excel contains formula, not computed value"
      else if (actual_num.sub expected_num).abs.lt (.fin (1 / 100)) then
        "Minor rounding difference"
      else "Value mismatch - manual verification needed"
    | _, _ => "Non-numeric comparison"

/-- Severity assignment for a field mismatch (validator.py lines 198-206). -/
def severity_for (field_type : String) (diff : PFloat) : String :=
  if field_type = "currency" ∧ (PFloat.fin 1000).lt diff.abs then "CRITICAL"
  else if field_type = "percentage" ∧ (PFloat.fin (5 / 100)).lt diff.abs then "CRITICAL"
  else if field_type = "integer" ∧ (PFloat.fin 1).lt diff.abs then "WARNING"
  else "WARNING"

/-- Percent-difference computation (validator.py lines 212-217): guarded by
truthiness and a `!= 0` test, and a bare `except` turns any raised error
into `None`. -/
def compute_diff_pct (diff : PFloat) (expected_val : Val) : Option PFloat :=
  if expected_val.truthy ∧ expected_val.neZero then
    match pyFloatOf expected_val with
    | some e =>
      match diff.divO e with
      | some d => some (d.mul (.fin 100))
      | Option.none => Option.none
    | Option.none => Option.none
  else Option.none

/-- Build one field-level Discrepancy (validator.py lines 219-231). -/
def mkFieldDisc (actual : Record) (key : Key) (label : String)
    (actual_val expected_val : Val) (diff : PFloat) (severity hint : String) : Discrepancy :=
  { market := actual.market.getD (.str key.1)
    category := actual.category.getD (.str key.2.1)
    brand := actual.brand.getD (.str key.2.2)
    field := label
    actual_value := actual_val
    expected_value := expected_val
    difference := if diff.truthyP then some (pyRound diff 6) else Option.none
    diff_percent :=
      match compute_diff_pct diff expected_val with
      | some d => if d.truthyP then some (pyRound d 2) else Option.none
      | Option.none => Option.none
    excel_row := actual.excel_row.getD Val.none
    severity := severity
    root_cause_hint := hint }

/-- The field loop of `validate_record` (validator.py lines 190-231), over
an explicit field list.  A raised exception from `compare_values`
propagates. -/
def validate_fields (actual expected : Record) (key : Key) :
    List (String × String × String) → Except String (List Discrepancy)
  | [] => .ok []
  | (field_name, field_type, label) :: rest =>
    match compare_values (actual.get field_name) (expected.get field_name) field_type with
    | .error msg => .error msg
    | .ok (is_match, diff, _mt) =>
      match validate_fields actual expected key rest with
      | .error msg => .error msg
      | .ok ds =>
        if is_match then .ok ds
        else .ok (mkFieldDisc actual key label (actual.get field_name)
            (expected.get field_name) diff (severity_for field_type diff)
            (infer_root_cause (actual.get field_name) (expected.get field_name)
              field_name field_type) :: ds)

/-- `validate_record` of validator.py (lines 179-233). -/
def validate_record (actual expected : Record) (key : Key) :
    Except String (List Discrepancy) :=
  validate_fields actual expected key FIELD_DEFINITIONS

/-- Insert into a Python dict modelled as an insertion-ordered association
list: overwriting keeps the original position (last write wins on the
value). -/
def assocSet (l : List (Key × Record)) (k : Key) (v : Record) : List (Key × Record) :=
  if l.any (fun p => p.1 = k) then
    l.map (fun p => if p.1 = k then (k, v) else p)
  else l ++ [(k, v)]

/-- One step of record extraction: skip rollup rows, key the rest by
`normalize_key`. -/
def buildStep (acc : List (Key × Record)) (rec : Record) : List (Key × Record) :=
  if (rec.is_total.getD Val.none).truthy then acc
  else
    assocSet acc
      (normalize_key (rec.market.getD Val.none) (rec.category.getD Val.none)
        (rec.brand.getD Val.none)) rec

/-- The record extraction of `extract_actual_values` and
`extract_expected_values` (validator.py lines 143-176) after JSON I/O:
skip rollup rows, key the rest by `normalize_key`, last write wins. -/
def buildRecords (records : List Record) : List (Key × Record) :=
  records.foldl buildStep []

/-- Keys of both collections intersected (validator.py line 366); Python
iterates a set, whose order is unspecified — the model fixes the actual
collection's insertion order, which no claim-relevant count depends on. -/
def commonKeys (am em : List (Key × Record)) : List Key :=
  (am.map Prod.fst).filter (fun k => (em.map Prod.fst).contains k)

/-- Keys only in the actual (Excel) collection (validator.py line 367). -/
def excelOnlyKeys (am em : List (Key × Record)) : List Key :=
  (am.map Prod.fst).filter (fun k => !(em.map Prod.fst).contains k)

/-- Keys only in the expected (PPT, source-of-truth) collection
(validator.py line 368). -/
def pptOnlyKeys (am em : List (Key × Record)) : List Key :=
  (em.map Prod.fst).filter (fun k => !(am.map Prod.fst).contains k)

/-- The whole-record CRITICAL discrepancy for a source-of-truth-only key
(validator.py lines 374-388). -/
def mkMissingDisc (rec : Record) : Discrepancy :=
  { market := rec.market.getD Val.none
    category := rec.category.getD Val.none
    brand := rec.brand.getD Val.none
    field := "ENTIRE RECORD"
    actual_value := Val.none
    expected_value := .str "EXISTS IN PPT"
    difference := Option.none
    diff_percent := Option.none
    excel_row := Val.none
    severity := "CRITICAL"
    root_cause_hint := "Record exists in PPT but missing from Excel" }

/-- The list of whole-record discrepancies for the given keys. -/
def missingDiscList (em : List (Key × Record)) (ks : List Key) : List Discrepancy :=
  ks.map (fun k => mkMissingDisc ((alookup em k).getD default))

/-- The per-common-record loop of `run_validation` (validator.py lines
391-399): concatenated discrepancies, records checked, fields checked. -/
def validate_common (am em : List (Key × Record)) :
    List Key → Except String (List Discrepancy × ℕ × ℕ)
  | [] => .ok ([], 0, 0)
  | k :: rest =>
    match validate_record ((alookup am k).getD default) ((alookup em k).getD default) k with
    | .error msg => .error msg
    | .ok ds =>
      match validate_common am em rest with
      | .error msg => .error msg
      | .ok (acc, nrec, nfields) =>
        .ok (ds ++ acc, nrec + 1, nfields + FIELD_DEFINITIONS.length)

/-- The aggregation step of `run_validation` (validator.py lines 370-407):
counts, exact-match bookkeeping and pass rate. -/
def aggregate (missing cds : List Discrepancy) (nrec nfields poLen eoLen : ℕ) :
    ValidationResult :=
  let discrepancies := missing ++ cds
  let mismatches := discrepancies.length
  let exact_matches : ℤ := (nfields : ℤ) - (mismatches : ℤ)
  { total_fields_checked := nfields
    total_records_checked := nrec
    exact_matches := exact_matches
    within_tolerance := 0
    mismatches := mismatches
    missing_in_excel := poLen
    missing_in_ppt := eoLen
    discrepancies := discrepancies
    pass_rate := if 0 < nfields then ((exact_matches : ℚ) / (nfields : ℚ)) * 100 else 0 }

/-- `run_validation` of validator.py (lines 348-412), on the two already
extracted record lists (file reading and printing dropped). -/
def run_validation (actualRaw expectedRaw : List Record) :
    Except String ValidationResult :=
  let am := buildRecords actualRaw
  let em := buildRecords expectedRaw
  match validate_common am em (commonKeys am em) with
  | .error msg => .error msg
  | .ok (cds, nrec, nfields) =>
    .ok (aggregate (missingDiscList em (pptOnlyKeys am em)) cds nrec nfields
      (pptOnlyKeys am em).length (excelOnlyKeys am em).length)

/-- The status field of the JSON report (validator.py line 523). -/
def json_status (r : ValidationResult) : String :=
  if r.mismatches = 0 ∧ r.missing_in_excel = 0 then "PASS" else "FAIL"

/-- The status section of the markdown report (validator.py lines
438-446). -/
def markdown_status_lines (r : ValidationResult) : List String :=
  if r.mismatches = 0 ∧ r.missing_in_excel = 0 then
    ["## Status: PASS", "",
     "All values in Excel match PPT source of truth within tolerance."]
  else
    ["## Status: FAIL", "",
     "Found " ++ toString r.mismatches ++ " discrepancies requiring attention."]

/-- The PASS lines of the markdown status section. -/
def mdPassLines : List String :=
  ["## Status: PASS", "",
   "All values in Excel match PPT source of truth within tolerance."]

/-- Does the comparator classify this schema field of this record pair as
exact or within tolerance?  (Spec-side counting predicate used to compare
the program's pass rate against the spec's definition of it.) -/
def specMatchP (actual expected : Record) (fd : String × String × String) : Bool :=
  match compare_values (actual.get fd.1) (expected.get fd.1) fd.2.1 with
  | .ok (_, _, c) => c = "exact" ∨ c = "within_tolerance"
  | .error _ => false

/-- Modelled from the spec: the number of field comparisons over the
common records that are classified exact or within tolerance. -/
def specFieldMatches (am em : List (Key × Record)) : ℕ :=
  ((commonKeys am em).map
    (fun k => FIELD_DEFINITIONS.countP
      (specMatchP ((alookup am k).getD default) ((alookup em k).getD default)))).sum

/-- Total number of field comparisons over the common records. -/
def specTotalFields (am em : List (Key × Record)) : ℕ :=
  (commonKeys am em).length * FIELD_DEFINITIONS.length

/-- Modelled from the spec: "Pass rate = exact-or-within-tolerance field
count ÷ total fields checked (across all common records), expressed as a
percentage; if zero fields were checked, pass rate is defined as 0". -/
def specFieldPassRate (actualRaw expectedRaw : List Record) : ℚ :=
  let am := buildRecords actualRaw
  let em := buildRecords expectedRaw
  if specTotalFields am em = 0 then 0
  else ((specFieldMatches am em : ℚ) / (specTotalFields am em : ℚ)) * 100

/-- The display labels of the field schema. -/
def fieldLabels : List String := FIELD_DEFINITIONS.map (fun fd => fd.2.2)

/-- The exact situation in which `compare_values` raises: both sides
survive `float(...)` coercion but one of them is non-finite, so the
`int()` calls of the integer branch raise. -/
def intOverflowCase (actual expected : Val) : Bool :=
  if actual = Val.none ∧ expected = Val.none then false
  else
    match pyFloatOf (substitute actual), pyFloatOf (substitute expected) with
    | some pa, some pe => !pa.isFinite || !pe.isFinite
    | _, _ => false

-- Concrete test inputs used by witnesses and counterexamples.

/-- A record keyed (M, C, B) with every schema field absent. -/
def recMCB : Record :=
  { market := some (.str "M"), category := some (.str "C"), brand := some (.str "B") }

/-- A record keyed (X, Y, Z) with every schema field absent. -/
def recX : Record :=
  { market := some (.str "X"), category := some (.str "Y"), brand := some (.str "Z") }

/-- Actual-side collection: just (M, C, B). -/
def exActual : List Record := [recMCB]

/-- Expected-side collection: (M, C, B) plus the extra record (X, Y, Z),
which is therefore missing from the target. -/
def exExpected : List Record := [recMCB, recX]

/-- Actual side of a run with a string-fallback field mismatch on AWA. -/
def recF_a : Record :=
  { market := some (.str "KSA"), category := some (.str "OHC"),
    brand := some (.str "SENSODYNE"), fields := [("awa", .str "abc")] }

/-- Expected side of the same run: AWA is the number 1. -/
def recF_e : Record :=
  { market := some (.str "KSA"), category := some (.str "OHC"),
    brand := some (.str "SENSODYNE"), fields := [("awa", .num 1)] }

/-- The discrepancy list `validate_record` produces on the
`recF_a`/`recF_e` pair. -/
def c8ds : List Discrepancy :=
  [mkFieldDisc recF_a ("KSA", "OHC", "SENSODYNE") "AWA" (.str "abc") (.num 1) (.fin 0)
    (severity_for "percentage" (.fin 0))
    (infer_root_cause (.str "abc") (.num 1) "awa" "percentage")]

/-! Helper lemmas about the comparator and the validation pipeline. -/

/-- A comparison that returns at all returns a match exactly when its
classification is exact or within tolerance. -/
lemma compare_ok_match_iff (a e : Val) (t : String) (m : Bool) (d : PFloat) (c : String)
    (h : compare_values a e t = .ok (m, d, c)) :
    m = true ↔ (c = "exact" ∨ c = "within_tolerance") := by
  unfold compare_values at h
  split at h
  · simp_all
  · rcases hpa : pyFloatOf (substitute a) with _ | pa <;>
      rcases hpe : pyFloatOf (substitute e) with _ | pe <;>
      simp only [hpa, hpe] at h <;>
      (try split at h) <;> (try split at h) <;> (try split at h) <;>
      (try split at h) <;> (try split at h) <;> (try split at h)
    all_goals try exact Except.noConfusion h
    all_goals
      injection h with h2
      injection h2 with hm h3
      injection h3 with hd hc
      subst hm
      subst hc
      decide

/-- Severity is always one of the two labels, and CRITICAL exactly on the
two type-specific thresholds. -/
lemma severity_for_cases (t : String) (d : PFloat) :
    (severity_for t d = "CRITICAL" ∨ severity_for t d = "WARNING") ∧
    (severity_for t d = "CRITICAL" ↔
      ((t = "currency" ∧ (PFloat.fin 1000).lt d.abs = true) ∨
       (t = "percentage" ∧ (PFloat.fin (5 / 100)).lt d.abs = true))) := by
  unfold severity_for
  split_ifs <;> simp_all

/-- Every discrepancy the field loop emits is the canonical field
discrepancy of one of the given schema fields. -/
lemma validate_fields_mem (actual expected : Record) (key : Key) :
    ∀ (fds : List (String × String × String)) (ds : List Discrepancy),
      validate_fields actual expected key fds = .ok ds →
      ∀ disc ∈ ds, ∃ fd ∈ fds, ∃ diff,
        disc = mkFieldDisc actual key fd.2.2 (actual.get fd.1) (expected.get fd.1) diff
          (severity_for fd.2.1 diff)
          (infer_root_cause (actual.get fd.1) (expected.get fd.1) fd.1 fd.2.1) := by
  intro fds
  induction fds with
  | nil =>
    intro ds h disc hd
    unfold validate_fields at h
    injection h with h2
    subst h2
    simp at hd
  | cons fd rest ih =>
    intro ds h disc hd
    obtain ⟨fn, ft, lb⟩ := fd
    unfold validate_fields at h
    cases hc : compare_values (actual.get fn) (expected.get fn) ft <;> rw [hc] at h
    · exact Except.noConfusion h
    case ok val =>
      obtain ⟨im, diff, mt⟩ := val
      cases hr : validate_fields actual expected key rest <;> rw [hr] at h
      · exact Except.noConfusion h
      case ok ds2 =>
        simp only at h
        by_cases him : im = true
        · rw [if_pos him] at h
          injection h with h2
          subst h2
          obtain ⟨fd2, hfd2, diff2, hdisc⟩ := ih ds2 hr disc hd
          exact ⟨fd2, List.mem_cons_of_mem _ hfd2, diff2, hdisc⟩
        · rw [if_neg him] at h
          injection h with h2
          subst h2
          rcases List.mem_cons.mp hd with hEq | hd2
          · exact ⟨(fn, ft, lb), List.mem_cons_self _ _, diff, hEq⟩
          · obtain ⟨fd2, hfd2, diff2, hdisc⟩ := ih ds2 hr disc hd2
            exact ⟨fd2, List.mem_cons_of_mem _ hfd2, diff2, hdisc⟩

/-- The field loop emits one discrepancy per non-matching field: its output
length plus the number of exact-or-within-tolerance fields is the number of
fields. -/
lemma validate_fields_length (actual expected : Record) (key : Key) :
    ∀ (fds : List (String × String × String)) (ds : List Discrepancy),
      validate_fields actual expected key fds = .ok ds →
      ds.length + fds.countP (specMatchP actual expected) = fds.length := by
  intro fds
  induction fds with
  | nil =>
    intro ds h
    unfold validate_fields at h
    injection h with h2
    subst h2
    simp
  | cons fd rest ih =>
    intro ds h
    obtain ⟨fn, ft, lb⟩ := fd
    unfold validate_fields at h
    cases hc : compare_values (actual.get fn) (expected.get fn) ft <;> rw [hc] at h
    · exact Except.noConfusion h
    case ok val =>
      obtain ⟨im, diff, mt⟩ := val
      cases hr : validate_fields actual expected key rest <;> rw [hr] at h
      · exact Except.noConfusion h
      case ok ds2 =>
        simp only at h
        have hcnt : specMatchP actual expected (fn, ft, lb) = im := by
          unfold specMatchP
          rw [hc]
          have hi := compare_ok_match_iff _ _ _ _ _ _ hc
          cases im
          · simp at hi
            simp [hi]
          · simp at hi
            simp [hi]
        by_cases him : im = true
        · rw [if_pos him] at h
          injection h with h2
          subst h2
          have hih := ih ds2 hr
          simp [List.countP_cons, hcnt, him]
          omega
        · rw [if_neg him] at h
          injection h with h2
          subst h2
          have hih := ih ds2 hr
          have him2 : im = false := by cases im <;> simp_all
          simp [List.countP_cons, hcnt, him2]
          omega

/-- Full characterization of a successful run of the common-record loop:
counters, match accounting, and the shape of every emitted discrepancy. -/
lemma validate_common_elim (am em : List (Key × Record)) :
    ∀ (ks : List Key) (cds : List Discrepancy) (nrec nfields : ℕ),
      validate_common am em ks = .ok (cds, nrec, nfields) →
      nrec = ks.length ∧ nfields = ks.length * FIELD_DEFINITIONS.length ∧
      cds.length + (ks.map (fun k => FIELD_DEFINITIONS.countP
        (specMatchP ((alookup am k).getD default) ((alookup em k).getD default)))).sum = nfields ∧
      (∀ disc ∈ cds, ∃ k, ∃ fd ∈ FIELD_DEFINITIONS, ∃ diff,
        disc = mkFieldDisc ((alookup am k).getD default) k fd.2.2
          (((alookup am k).getD default).get fd.1) (((alookup em k).getD default).get fd.1) diff
          (severity_for fd.2.1 diff)
          (infer_root_cause (((alookup am k).getD default).get fd.1)
            (((alookup em k).getD default).get fd.1) fd.1 fd.2.1)) := by
  intro ks
  induction ks with
  | nil =>
    intro cds nrec nfields h
    unfold validate_common at h
    injection h with h2
    injection h2 with hcds h3
    injection h3 with hnrec hnf
    subst hcds; subst hnrec; subst hnf
    simp
  | cons k rest ih =>
    intro cds nrec nfields h
    unfold validate_common at h
    cases hv : validate_record ((alookup am k).getD default) ((alookup em k).getD default) k <;>
      rw [hv] at h
    · exact Except.noConfusion h
    case ok ds =>
      cases hr : validate_common am em rest <;> rw [hr] at h
      · exact Except.noConfusion h
      case ok out =>
        obtain ⟨acc, nrec2, nfields2⟩ := out
        simp only at h
        injection h with h2
        injection h2 with hcds h3
        injection h3 with hnrec hnf
        subst hcds; subst hnrec; subst hnf
        obtain ⟨ha, hb, hc2, hmem⟩ := ih acc nrec2 nfields2 hr
        refine ⟨by simp [ha], by simp [hb]; ring, ?_, ?_⟩
        · have hlen := validate_fields_length ((alookup am k).getD default)
            ((alookup em k).getD default) k FIELD_DEFINITIONS ds hv
          simp only [List.map_cons, List.sum_cons, List.length_append]
          omega
        · intro disc hdisc
          rcases List.mem_append.mp hdisc with hmem1 | hmem2
          · obtain ⟨fd, hfd, diff, hdisc2⟩ :=
              validate_fields_mem ((alookup am k).getD default) ((alookup em k).getD default) k
                FIELD_DEFINITIONS ds hv disc hmem1
            exact ⟨k, fd, hfd, diff, hdisc2⟩
          · exact hmem disc hmem2

/-- Overwriting insertion leaves the key list unchanged; fresh insertion
appends the key. -/
lemma assocSet_keys (l : List (Key × Record)) (k : Key) (v : Record) :
    (assocSet l k v).map Prod.fst =
      if l.any (fun p => p.1 = k) then l.map Prod.fst else l.map Prod.fst ++ [k] := by
  unfold assocSet
  split
  · rw [List.map_map]
    apply List.map_congr_left
    intro p _
    by_cases hp : p.1 = k
    · simp [hp]
    · simp [hp]
  · simp

/-- Dict insertion preserves distinctness of keys. -/
lemma assocSet_nodup (l : List (Key × Record)) (k : Key) (v : Record)
    (h : (l.map Prod.fst).Nodup) : ((assocSet l k v).map Prod.fst).Nodup := by
  rw [assocSet_keys]
  split
  · exact h
  case isFalse hany =>
    have hk : k ∉ l.map Prod.fst := by
      intro hmem
      apply hany
      rw [List.any_eq_true]
      obtain ⟨p, hp, hpk⟩ := List.mem_map.mp hmem
      exact ⟨p, hp, by simp [hpk]⟩
    simp [List.nodup_append, h, hk]

/-- Folding record extraction over any nodup accumulator keeps keys nodup. -/
lemma buildRecords_foldl_nodup :
    ∀ (rs : List Record) (acc : List (Key × Record)),
      (acc.map Prod.fst).Nodup → ((rs.foldl buildStep acc).map Prod.fst).Nodup := by
  intro rs
  induction rs with
  | nil => intro acc h; exact h
  | cons r rest ih =>
    intro acc h
    rw [List.foldl_cons]
    apply ih
    unfold buildStep
    split
    · exact h
    · exact assocSet_nodup _ _ _ h

/-- The extracted collections are Python dicts: their keys are distinct. -/
lemma buildRecords_nodup (rs : List Record) : ((buildRecords rs).map Prod.fst).Nodup := by
  unfold buildRecords
  exact buildRecords_foldl_nodup rs [] (by simp)

/-- The source-of-truth-only key list has no duplicates. -/
lemma pptOnlyKeys_nodup (a e : List Record) :
    (pptOnlyKeys (buildRecords a) (buildRecords e)).Nodup := by
  unfold pptOnlyKeys
  exact (buildRecords_nodup e).filter _

/-- Inversion of a successful `run_validation`: it is the aggregation of the
missing-record discrepancies and a successful common-record loop. -/
lemma run_validation_ok_elim {a e : List Record} {r : ValidationResult}
    (h : run_validation a e = .ok r) :
    ∃ cds nrec nfields,
      validate_common (buildRecords a) (buildRecords e)
        (commonKeys (buildRecords a) (buildRecords e)) = .ok (cds, nrec, nfields) ∧
      r = aggregate (missingDiscList (buildRecords e)
            (pptOnlyKeys (buildRecords a) (buildRecords e))) cds nrec nfields
            (pptOnlyKeys (buildRecords a) (buildRecords e)).length
            (excelOnlyKeys (buildRecords a) (buildRecords e)).length := by
  unfold run_validation at h
  dsimp only at h
  cases hv : validate_common (buildRecords a) (buildRecords e)
      (commonKeys (buildRecords a) (buildRecords e)) <;>
    rw [hv] at h
  · exact Except.noConfusion h
  case ok out =>
    obtain ⟨cds, nrec, nfields⟩ := out
    simp only at h
    injection h with h2
    exact ⟨cds, nrec, nfields, rfl, h2.symm⟩

/-! The claims. -/

/-- C1: for every validation run, the reported verdict is PASS iff the
result's mismatch count is zero and the count of records missing from the
target is zero, identically in the JSON report's status field and the
markdown report's status section. -/
theorem C1_verdict_pass_iff (a e : List Record) (r : ValidationResult)
    (_h : run_validation a e = .ok r) :
    (json_status r = "PASS" ↔ (r.mismatches = 0 ∧ r.missing_in_excel = 0)) ∧
    (markdown_status_lines r = mdPassLines ↔ (r.mismatches = 0 ∧ r.missing_in_excel = 0)) ∧
    (json_status r = "PASS" ↔ markdown_status_lines r = mdPassLines) := by
  unfold json_status markdown_status_lines mdPassLines
  by_cases hc : r.mismatches = 0 ∧ r.missing_in_excel = 0
  · simp [hc]
  · simp [hc]

/-- Witness for C1 at the concrete empty run, whose verdict is PASS. -/
theorem C1_verdict_pass_iff_witness :
    run_validation [] [] = .ok (aggregate [] [] 0 0 0 0) ∧
    ((json_status (aggregate [] [] 0 0 0 0) = "PASS" ↔
       ((aggregate [] [] 0 0 0 0).mismatches = 0 ∧
        (aggregate [] [] 0 0 0 0).missing_in_excel = 0)) ∧
     (markdown_status_lines (aggregate [] [] 0 0 0 0) = mdPassLines ↔
       ((aggregate [] [] 0 0 0 0).mismatches = 0 ∧
        (aggregate [] [] 0 0 0 0).missing_in_excel = 0)) ∧
     (json_status (aggregate [] [] 0 0 0 0) = "PASS" ↔
       markdown_status_lines (aggregate [] [] 0 0 0 0) = mdPassLines)) :=
  ⟨rfl, C1_verdict_pass_iff [] [] (aggregate [] [] 0 0 0 0) rfl⟩

/-- C2 counterexample: on a run with one fully matching common record and
one record missing from the target, every one of the 13 field comparisons
is a match, so the claim's field-level pass rate is 100, yet the program
reports 1200/13 (about 92.3): a source-only discrepancy does alter the pass
rate. -/
theorem C2_pass_rate_counterexample :
    (run_validation exActual exExpected).toOption.map ValidationResult.pass_rate =
      some (1200 / 13) ∧
    specFieldPassRate exActual exExpected = 100 ∧
    ((1200 : ℚ) / 13) ≠ 100 := by
  refine ⟨?_, ?_, by norm_num⟩
  · have h : run_validation exActual exExpected =
        .ok (aggregate [mkMissingDisc recX] [] 1 13 1 0) := by rfl
    rw [h]
    simp [aggregate]
    norm_num
    exact ⟨_, rfl, rfl⟩
  · have h1 : specTotalFields (buildRecords exActual) (buildRecords exExpected) = 13 := by decide
    have h2 : specFieldMatches (buildRecords exActual) (buildRecords exExpected) = 13 := by decide
    unfold specFieldPassRate
    dsimp only
    rw [h1, h2]
    norm_num

/-- C2 amended: the computed pass rate is (total fields checked minus the
total discrepancy count, whole-record missing discrepancies included) over
total fields checked, as a percentage, and 0 when no fields were checked;
it equals the spec's field-level exact-or-within-tolerance rate exactly
when no source-of-truth-only records exist. -/
theorem C2_pass_rate_amended (a e : List Record) (r : ValidationResult)
    (h : run_validation a e = .ok r) :
    (r.pass_rate = if r.total_fields_checked = 0 then 0
      else (((r.total_fields_checked : ℚ) - (r.discrepancies.length : ℚ)) /
        (r.total_fields_checked : ℚ)) * 100) ∧
    (pptOnlyKeys (buildRecords a) (buildRecords e) = [] →
      r.pass_rate = specFieldPassRate a e) := by
  obtain ⟨cds, nrec, nfields, hv, hr⟩ := run_validation_ok_elim h
  obtain ⟨ha, hb, hcc, _⟩ := validate_common_elim _ _ _ _ _ _ hv
  subst hr
  constructor
  · by_cases hnf : nfields = 0
    · simp [aggregate, hnf]
    · have hpos : 0 < nfields := Nat.pos_of_ne_zero hnf
      simp only [aggregate, hpos, if_true, reduceIte, hnf, if_false]
      push_cast
      ring_nf
  · intro hpo
    have hmlen : missingDiscList (buildRecords e)
        (pptOnlyKeys (buildRecords a) (buildRecords e)) = [] := by
      simp [missingDiscList, hpo]
    have htot : specTotalFields (buildRecords a) (buildRecords e) = nfields := hb.symm
    have hnum : (nfields : ℤ) - (cds.length : ℤ) =
        (specFieldMatches (buildRecords a) (buildRecords e) : ℤ) := by
      have : cds.length + specFieldMatches (buildRecords a) (buildRecords e) = nfields := hcc
      omega
    unfold specFieldPassRate
    simp only [aggregate, hmlen, List.nil_append]
    rw [htot]
    by_cases hnf : nfields = 0
    · simp [hnf]
    · have hpos : 0 < nfields := Nat.pos_of_ne_zero hnf
      simp only [hpos, if_true, reduceIte, hnf, if_false]
      rw [hnum]
      push_cast
      ring

/-- Witness for the amended C2 at a concrete run with one fully matching
common record and no missing records. -/
theorem C2_pass_rate_amended_witness :
    run_validation [recMCB] [recMCB] = .ok (aggregate [] [] 1 13 0 0) ∧
    (((aggregate [] [] 1 13 0 0).pass_rate =
        if (aggregate [] [] 1 13 0 0).total_fields_checked = 0 then 0
        else ((((aggregate [] [] 1 13 0 0).total_fields_checked : ℚ) -
            ((aggregate [] [] 1 13 0 0).discrepancies.length : ℚ)) /
          ((aggregate [] [] 1 13 0 0).total_fields_checked : ℚ)) * 100) ∧
      (pptOnlyKeys (buildRecords [recMCB]) (buildRecords [recMCB]) = [] →
        (aggregate [] [] 1 13 0 0).pass_rate = specFieldPassRate [recMCB] [recMCB])) :=
  ⟨rfl, C2_pass_rate_amended [recMCB] [recMCB] (aggregate [] [] 1 13 0 0) rfl⟩

/-- C3 counterexample: on subgroup input "A-B C" the validator's key
normalizer returns "ABC", not the trimmed-and-uppercased "A-B C" the claim
predicts — internal spaces and hyphens are removed from the subgroup too. -/
theorem C3_normalizer_counterexample :
    normalize_key (.str "ksa") (.str "A-B C") (.str "x") = ("KSA", "ABC", "X") ∧
    pyUpper (pyStrip "A-B C") = "A-B C" ∧
    (("KSA", "ABC", "X") : Key) ≠ ("KSA", "A-B C", "X") := by decide

/-- On a string input, the validator's clean helper is trim, uppercase, and
removal of internal spaces and hyphens. -/
lemma clean_str (g : String) :
    clean (.str g) = removeChar '-' (removeChar ' ' (pyUpper (pyStrip g))) := by
  unfold clean
  by_cases hg : g = ""
  · subst hg
    decide
  · simp [Val.truthy, hg, pyStr]

/-- On a string input, the diff-report market normalizer is trim and
uppercase only. -/
lemma normalize_market_str (g : String) :
    normalize_market (.str g) = pyUpper (pyStrip g) := by
  unfold normalize_market
  by_cases hg : g = ""
  · subst hg
    decide
  · simp [Val.truthy, hg, pyStr]

/-- C3 amended: the two key normalizers disagree.  validator.normalize_key
trims, uppercases, and removes internal spaces and hyphens from all three
components alike; only generate_diff_report.make_key has the asymmetry the
claim describes (group and subgroup keep internal spaces and hyphens, the
entity is additionally despaced); absent inputs give empty strings in
both. -/
theorem C3_normalizer_amended :
    (∀ g s e : String,
      normalize_key (.str g) (.str s) (.str e) =
        (removeChar '-' (removeChar ' ' (pyUpper (pyStrip g))),
         removeChar '-' (removeChar ' ' (pyUpper (pyStrip s))),
         removeChar '-' (removeChar ' ' (pyUpper (pyStrip e))))) ∧
    (∀ g s e : String,
      make_key (some (.str g)) (some (.str s)) (some (.str e)) =
        (pyUpper (pyStrip g), pyUpper (pyStrip s),
         removeChar '-' (removeChar ' ' (pyUpper (pyStrip e))))) ∧
    normalize_key Val.none Val.none Val.none = ("", "", "") ∧
    make_key Option.none Option.none Option.none = ("", "", "") := by
  refine ⟨?_, ?_, by decide, by decide⟩
  · intro g s e
    unfold normalize_key
    rw [clean_str, clean_str, clean_str]
  · intro g s e
    unfold make_key
    simp only [Option.getD_some]
    rw [normalize_market_str]
    refine congrArg _ ?_
    refine congrArg₂ _ ?_ ?_
    · by_cases hs : s = ""
      · subst hs
        decide
      · simp [Option.getD, Val.truthy, hs, pyStr]
    · unfold normalize_brand
      by_cases he : e = ""
      · subst he
        decide
      · simp [Option.getD, Val.truthy, he, pyStr]

/-- C4: every record key present only in the source-of-truth collection
contributes exactly one discrepancy — severity CRITICAL with the sentinel
field label ENTIRE RECORD — and no field-level discrepancy: the
discrepancy list is exactly one whole-record discrepancy per
source-only key followed by field-level discrepancies, whose labels are
schema labels and never the sentinel. -/
theorem C4_missing_record (a e : List Record) (r : ValidationResult)
    (h : run_validation a e = .ok r) :
    r.discrepancies.take (pptOnlyKeys (buildRecords a) (buildRecords e)).length =
      missingDiscList (buildRecords e) (pptOnlyKeys (buildRecords a) (buildRecords e)) ∧
    (∀ d ∈ r.discrepancies.take (pptOnlyKeys (buildRecords a) (buildRecords e)).length,
      d.field = "ENTIRE RECORD" ∧ d.severity = "CRITICAL") ∧
    (∀ d ∈ r.discrepancies.drop (pptOnlyKeys (buildRecords a) (buildRecords e)).length,
      d.field ∈ fieldLabels ∧ d.field ≠ "ENTIRE RECORD") ∧
    (pptOnlyKeys (buildRecords a) (buildRecords e)).Nodup := by
  obtain ⟨cds, nrec, nfields, hv, hr⟩ := run_validation_ok_elim h
  obtain ⟨_, _, _, hmem⟩ := validate_common_elim _ _ _ _ _ _ hv
  subst hr
  have hlen : (missingDiscList (buildRecords e)
      (pptOnlyKeys (buildRecords a) (buildRecords e))).length =
      (pptOnlyKeys (buildRecords a) (buildRecords e)).length := by
    simp [missingDiscList]
  have htake : (aggregate (missingDiscList (buildRecords e)
        (pptOnlyKeys (buildRecords a) (buildRecords e))) cds nrec nfields
        (pptOnlyKeys (buildRecords a) (buildRecords e)).length
        (excelOnlyKeys (buildRecords a) (buildRecords e)).length).discrepancies =
      missingDiscList (buildRecords e) (pptOnlyKeys (buildRecords a) (buildRecords e)) ++ cds := by
    simp [aggregate]
  refine ⟨?_, ?_, ?_, pptOnlyKeys_nodup a e⟩
  · rw [htake, ← hlen, List.take_left]
  · intro d hd
    rw [htake, ← hlen, List.take_left] at hd
    obtain ⟨k, _, hdk⟩ := List.mem_map.mp hd
    subst hdk
    exact ⟨rfl, rfl⟩
  · intro d hd
    rw [htake, ← hlen, List.drop_left] at hd
    obtain ⟨k, fd, hfd, diff, hdisc⟩ := hmem d hd
    subst hdisc
    constructor
    · exact List.mem_map.mpr ⟨fd, hfd, rfl⟩
    · intro hcontra
      have hin : ("ENTIRE RECORD" : String) ∈ fieldLabels := by
        rw [← hcontra]
        exact List.mem_map.mpr ⟨fd, hfd, rfl⟩
      revert hin
      decide

/-- Witness for C4 at the concrete run with the source-only record
(X, Y, Z). -/
theorem C4_missing_record_witness :
    run_validation exActual exExpected = .ok (aggregate [mkMissingDisc recX] [] 1 13 1 0) ∧
    ((aggregate [mkMissingDisc recX] [] 1 13 1 0).discrepancies.take
        (pptOnlyKeys (buildRecords exActual) (buildRecords exExpected)).length =
      missingDiscList (buildRecords exExpected)
        (pptOnlyKeys (buildRecords exActual) (buildRecords exExpected)) ∧
    (∀ d ∈ (aggregate [mkMissingDisc recX] [] 1 13 1 0).discrepancies.take
        (pptOnlyKeys (buildRecords exActual) (buildRecords exExpected)).length,
      d.field = "ENTIRE RECORD" ∧ d.severity = "CRITICAL") ∧
    (∀ d ∈ (aggregate [mkMissingDisc recX] [] 1 13 1 0).discrepancies.drop
        (pptOnlyKeys (buildRecords exActual) (buildRecords exExpected)).length,
      d.field ∈ fieldLabels ∧ d.field ≠ "ENTIRE RECORD") ∧
    (pptOnlyKeys (buildRecords exActual) (buildRecords exExpected)).Nodup) :=
  ⟨rfl, C4_missing_record exActual exExpected (aggregate [mkMissingDisc recX] [] 1 13 1 0) rfl⟩

/-- C5: an absent value, the dash placeholder, and zero are mutually
interchangeable for every field type: every combination compares as a
match, classified exact with difference 0, as does absent against
absent. -/
theorem C5_absent_dash_zero : ∀ t : String,
    compare_values Val.none (.num 0) t = .ok (true, .fin 0, "exact") ∧
    compare_values (.num 0) (.str "-") t = .ok (true, .fin 0, "exact") ∧
    compare_values Val.none (.str "-") t = .ok (true, .fin 0, "exact") ∧
    compare_values (.num 0) (.num 0) t = .ok (true, .fin 0, "exact") ∧
    compare_values Val.none Val.none t = .ok (true, .fin 0, "exact") := by
  intro t
  unfold compare_values substitute
  norm_num [pyFloatOf, PFloat.sub, PFloat.abs, PFloat.le, PFloat.lt, PCT_TOL, CURRENCY_TOL,
    EPSILON, PFloat.toIntE]

/-- C6: the comparator's tolerance boundary is inclusive — a percentage
difference of exactly 0.001 matches (within tolerance) while 0.002
mismatches, a currency difference of 0.5 matches as within_tolerance while
1.5 mismatches — and a passing comparison is classified exact exactly when
the absolute value of its returned difference is below the numerical
epsilon. -/
theorem C6_tolerance_boundary :
    compare_values (.num (49 / 1000)) (.num (5 / 100)) "percentage" =
      .ok (true, .fin (-1 / 1000), "within_tolerance") ∧
    compare_values (.num (48 / 1000)) (.num (5 / 100)) "percentage" =
      .ok (false, .fin (-1 / 500), "mismatch") ∧
    compare_values (.num 1000) (.num (2001 / 2)) "currency" =
      .ok (true, .fin (-1 / 2), "within_tolerance") ∧
    compare_values (.num 1000) (.num (2003 / 2)) "currency" =
      .ok (false, .fin (-3 / 2), "mismatch") ∧
    (∀ (a e : Val) (t : String) (d : PFloat) (c : String),
      compare_values a e t = .ok (true, d, c) →
      (c = "exact" ↔ d.abs.lt (.fin EPSILON) = true)) := by
  refine ⟨?_, ?_, ?_, ?_, ?_⟩
  · simp [compare_values, substitute, pyFloatOf, PFloat.sub, PFloat.abs, PFloat.le, PFloat.lt,
      PCT_TOL, EPSILON]
    norm_num [abs_of_pos, abs_of_neg]
  · simp [compare_values, substitute, pyFloatOf, PFloat.sub, PFloat.abs, PFloat.le, PFloat.lt,
      PCT_TOL, EPSILON]
    norm_num [abs_of_pos, abs_of_neg]
  · simp [compare_values, substitute, pyFloatOf, PFloat.sub, PFloat.abs, PFloat.le, PFloat.lt,
      CURRENCY_TOL, EPSILON]
    norm_num [abs_of_pos, abs_of_neg]
  · simp [compare_values, substitute, pyFloatOf, PFloat.sub, PFloat.abs, PFloat.le, PFloat.lt,
      CURRENCY_TOL, EPSILON]
    norm_num [abs_of_pos, abs_of_neg]
  · intro a e t d c h
    unfold compare_values at h
    split at h
    · simp only [Except.ok.injEq, Prod.mk.injEq] at h
      obtain ⟨hd, hc⟩ := h.2
      subst hd; subst hc
      norm_num [PFloat.abs, PFloat.lt, EPSILON]
    · rcases hpa : pyFloatOf (substitute a) with _ | pa <;>
        rcases hpe : pyFloatOf (substitute e) with _ | pe <;>
        simp only [hpa, hpe] at h <;>
        (try split at h) <;> (try split at h) <;> (try split at h) <;>
        (try split at h) <;> (try split at h) <;> (try split at h)
      all_goals try exact Except.noConfusion h
      all_goals (injection h with h2; injection h2 with hm h3; injection h3 with hd hc)
      all_goals try exact Bool.noConfusion hm
      all_goals (subst hd; subst hc; try simp_all)
      all_goals norm_num [PFloat.abs, PFloat.lt, EPSILON]

/-- Witness for C6's classification clause at the concrete within-tolerance
currency comparison of 1000 against 1000.5. -/
theorem C6_tolerance_boundary_witness :
    compare_values (.num 1000) (.num (2001 / 2)) "currency" =
      .ok (true, .fin (-1 / 2), "within_tolerance") ∧
    (("within_tolerance" : String) = "exact" ↔
      (PFloat.fin (-1 / 2)).abs.lt (.fin EPSILON) = true) :=
  ⟨C6_tolerance_boundary.2.2.1,
   C6_tolerance_boundary.2.2.2.2 (.num 1000) (.num (2001 / 2)) "currency" (.fin (-1 / 2))
     "within_tolerance" C6_tolerance_boundary.2.2.1⟩

/-- C7: under the integer field type two numerically coercible values match
exactly when they are equal after truncation toward zero, with no
tolerance: 7 against 8 is always a mismatch. -/
theorem C7_integer_truncation :
    (∀ (a e : ℚ) (m : Bool) (d : PFloat) (c : String),
      compare_values (.num a) (.num e) "integer" = .ok (m, d, c) →
      (m = true ↔ ratTrunc a = ratTrunc e)) ∧
    compare_values (.num 7) (.num 8) "integer" = .ok (false, .fin (-1), "mismatch") := by
  constructor
  · intro a e m d c h
    unfold compare_values substitute at h
    simp [pyFloatOf, PFloat.toIntE] at h
    split at h <;>
      (injection h with h2; injection h2 with hm h3; injection h3 with hd hc;
       subst hm; subst hc; simp_all)
  · simp [compare_values, substitute, pyFloatOf, PFloat.sub, PFloat.toIntE, ratTrunc]
    norm_num [Rat.floor_def', Rat.num_ofNat, Rat.den_ofNat]

/-- Witness for C7 at the concrete pair (7, 8). -/
theorem C7_integer_truncation_witness :
    compare_values (.num 7) (.num 8) "integer" = .ok (false, .fin (-1), "mismatch") ∧
    ((false = true) ↔ ratTrunc 7 = ratTrunc 8) :=
  ⟨C7_integer_truncation.2,
   C7_integer_truncation.1 7 8 false (.fin (-1)) "mismatch" C7_integer_truncation.2⟩

/-- C8: the classifier's severity is CRITICAL exactly when the field type
is currency with absolute difference above 1000 or percentage with
absolute difference above 0.05, and WARNING in every other case; and every
field discrepancy the record validator emits carries a severity assigned
by that rule for its schema field. -/
theorem C8_severity_thresholds :
    (∀ (t : String) (d : PFloat),
      (severity_for t d = "CRITICAL" ∨ severity_for t d = "WARNING") ∧
      (severity_for t d = "CRITICAL" ↔
        ((t = "currency" ∧ (PFloat.fin 1000).lt d.abs = true) ∨
         (t = "percentage" ∧ (PFloat.fin (5 / 100)).lt d.abs = true)))) ∧
    (∀ (actual expected : Record) (key : Key) (ds : List Discrepancy),
      validate_record actual expected key = .ok ds →
      ∀ disc ∈ ds, ∃ fd ∈ FIELD_DEFINITIONS, ∃ diff,
        disc.severity = severity_for fd.2.1 diff) := by
  constructor
  · exact severity_for_cases
  · intro actual expected key ds h disc hdisc
    obtain ⟨fd, hfd, diff, hdisc2⟩ :=
      validate_fields_mem actual expected key FIELD_DEFINITIONS ds h disc hdisc
    exact ⟨fd, hfd, diff, by rw [hdisc2]; rfl⟩

/-- Witness for C8 at a concrete record pair whose AWA field mismatches. -/
theorem C8_severity_thresholds_witness :
    validate_record recF_a recF_e ("KSA", "OHC", "SENSODYNE") = .ok c8ds ∧
    (∀ disc ∈ c8ds, ∃ fd ∈ FIELD_DEFINITIONS, ∃ diff,
      disc.severity = severity_for fd.2.1 diff) :=
  ⟨rfl, C8_severity_thresholds.2 recF_a recF_e ("KSA", "OHC", "SENSODYNE") c8ds rfl⟩

/-- C9 counterexample: the comparator raises on the numeric-looking strings
nan and inf under the integer field type — their float coercion succeeds
and the int() conversion then throws, so it does not degrade to string
equality and is not total. -/
theorem C9_totality_counterexample :
    compare_values (.str "nan") (.num 0) "integer" =
      .error "cannot convert float NaN to integer" ∧
    compare_values (.str "inf") (.num 0) "integer" =
      .error "cannot convert float infinity to integer" := by decide

/-- C9 amended: the comparator raises exactly when the field type is
integer and both sides coerce to floats of which at least one is
non-finite; on every other input (in particular whenever coercion fails,
where it degrades to string equality) it returns a result.  Root-cause
inference is a total function and in particular returns its unclassified
default on the comparator's crashing input. -/
theorem C9_totality_amended :
    (∀ (a e : Val) (t : String),
      (∃ msg, compare_values a e t = .error msg) ↔
        (t = "integer" ∧ intOverflowCase a e = true)) ∧
    infer_root_cause (.str "nan") (.num 0) "awa" "integer" =
      "Value mismatch - manual verification needed" := by
  constructor
  · intro a e t
    unfold compare_values intOverflowCase
    by_cases hne : a = Val.none ∧ e = Val.none
    · simp [hne]
    · simp only [hne, if_false]
      rcases hpa : pyFloatOf (substitute a) with _ | pa <;>
        rcases hpe : pyFloatOf (substitute e) with _ | pe <;>
        simp only [hpa, hpe] <;>
        by_cases ht1 : t = "percentage" <;>
        by_cases ht2 : t = "currency" <;>
        by_cases ht3 : t = "integer" <;>
        simp_all <;>
        try (split <;> simp_all)
      all_goals (cases pa <;> cases pe <;> simp_all [PFloat.toIntE, PFloat.isFinite] <;>
        try (split <;> simp_all))
  · decide

/-- C10 (implicit): in every ValidationResult the within_tolerance counter
is 0, the mismatch counter is the length of the full discrepancy list
(whole-record missing discrepancies included), and exact_matches is total
fields checked minus that length — so within-tolerance matches are folded
into exact_matches and each source-only missing record decrements
exact_matches although it contributes no checked field. -/
theorem C10_result_counters (a e : List Record) (r : ValidationResult)
    (h : run_validation a e = .ok r) :
    r.within_tolerance = 0 ∧
    r.mismatches = r.discrepancies.length ∧
    r.exact_matches = (r.total_fields_checked : ℤ) - (r.discrepancies.length : ℤ) := by
  obtain ⟨cds, nrec, nfields, hv, hr⟩ := run_validation_ok_elim h
  subst hr
  simp [aggregate]

/-- Witness for C10 at the concrete run with one fully matching common
record and one record missing from the target: 13 fields checked, one
whole-record discrepancy, exact_matches 12. -/
theorem C10_result_counters_witness :
    run_validation exActual exExpected = .ok (aggregate [mkMissingDisc recX] [] 1 13 1 0) ∧
    ((aggregate [mkMissingDisc recX] [] 1 13 1 0).within_tolerance = 0 ∧
     (aggregate [mkMissingDisc recX] [] 1 13 1 0).mismatches =
       (aggregate [mkMissingDisc recX] [] 1 13 1 0).discrepancies.length ∧
     (aggregate [mkMissingDisc recX] [] 1 13 1 0).exact_matches =
       ((aggregate [mkMissingDisc recX] [] 1 13 1 0).total_fields_checked : ℤ) -
         ((aggregate [mkMissingDisc recX] [] 1 13 1 0).discrepancies.length : ℤ)) :=
  ⟨rfl, C10_result_counters exActual exExpected (aggregate [mkMissingDisc recX] [] 1 13 1 0) rfl⟩
